import Mathlib

/-!
Shallow embedding of `src/smbasic.py` (class `SMBasic`, an SMBus-like I2C
wrapper).  Impure effects (stdout prints, `signal.alarm`, device reads and
writes, `time.sleep`, closing the device file) are recorded as an explicit
event trace.  The behaviour of the underlying device during one blocking
transfer is an environment parameter (`Outcome`); the bytes the device hands
back on the successive 1-byte polling reads of the mux loops are given as a
list, so the possibly-infinite polling loops become structural recursion that
returns `none` when the supplied responses are exhausted before the loop's
exit condition is met (i.e. the loop has not yet terminated).
Python exceptions that escape to the caller are modelled with `Except`.
-/

namespace SMBasicModel

/-- Python exceptions that can escape `SMBasic` to the caller.
In the source, `configError` and `notOpenError` are the `AssertionError`s of
the constructor's mux/channel XOR assert and of the `read_bytes`/`write_bytes`
open-device assert; `valueError` is the `ValueError` raised by
`bytearray([1 << channel])` (byte out of `range(0, 256)`, or negative shift). -/
inductive PyError where
  | configError
  | notOpenError
  | valueError
deriving DecidableEq, Repr

/-- One observable effect of the code: a line printed to stdout, the
`ioctl` device-address selection, `signal.alarm(secs)` (where `alarmSet 0`
disarms), the blocking `self._device.read`/`.write` call, `time.sleep`,
or closing the device file. -/
inductive Event where
  | printSelect (addr : Nat)
  | selectDevice (addr : Nat)
  | alarmSet (secs : Nat)
  | deviceRead (n : Nat)
  | deviceWrite (buf : List Nat)
  | printReadBytes (data : List Nat)
  | printWriteBytes (buf : List Nat)
  | printFailedRead (addr : Nat) (mux : Option Nat) (chan : Option (List Nat))
  | printIOErrRead (mux : Option Nat) (chan : Option (List Nat))
  | printFailedWrite (addr : Nat) (mux : Option Nat) (chan : Option (List Nat))
  | printIOErrWrite (mux : Option Nat) (chan : Option (List Nat))
  | sleepMs (ms : Nat)
  | closeDevice
deriving DecidableEq, Repr

/-- What the device does during one blocking transfer: completes normally
(for a read, handing back `data`), hangs until the alarm fires
(`TimeoutException`), or fails with an `OSError`. -/
inductive Outcome where
  | ok (data : List Nat)
  | timeout
  | ioError
deriving DecidableEq, Repr

/-- The state of an `SMBasic` instance: `mux`/`channel`/`verbose` as set by
`__init__` (`channel` is the `bytearray([1 << channel])` mask, a byte list),
`device` is `self._device` (`some bus` when the `/dev/i2c-{bus}` file is
open, `none` when closed), `locked` is `Lockable._locked`. -/
structure SMB where
  mux : Option Nat
  channel : Option (List Nat)
  verbose : Bool
  device : Option Nat
  locked : Bool
deriving DecidableEq, Repr

/-- `_I2C_TIMEOUT = 2` -/
def I2C_TIMEOUT : Nat := 2

/-- `_MUX_UNLOCK_REGISTER = 0x00.to_bytes(1, 'big')` -/
def MUX_UNLOCK_REGISTER : List Nat := [0]

/-- `Lockable.try_lock`: returns `False` if the flag is already held,
otherwise sets it and returns `True`. -/
def try_lock (st : SMB) : Bool × SMB :=
  if st.locked then (false, st) else (true, { st with locked := true })

/-- `Lockable.unlock`: clears the flag if held. -/
def unlock (st : SMB) : SMB :=
  if st.locked then { st with locked := false } else st

/-- `SMBasic._select_device`: optional verbose print, then
`ioctl(fd, _I2C_DEVICE, addr & 0x7F)`. -/
def selectDeviceTrace (addr : Nat) (verbose : Bool) : List Event :=
  (if verbose then [Event.printSelect addr] else []) ++
    [Event.selectDevice (addr &&& 0x7F)]

/-- `SMBasic.read_bytes`: asserts the device is open (else the
`AssertionError` escapes), selects the device, arms the 2s alarm, attempts
the blocking read, and in the `TimeoutException`/`OSError` handlers prints a
diagnostic; the `finally` block disarms the alarm on every path; the fallback
return is `bytearray(number)`, a zero-filled buffer of length `number`. -/
def read_bytes (st : SMB) (addr number : Nat) (out : Outcome) :
    Except PyError (List Event × List Nat) :=
  match st.device with
  | none => Except.error PyError.notOpenError
  | some _ =>
    let pre := selectDeviceTrace addr st.verbose ++ [Event.alarmSet I2C_TIMEOUT]
    match out with
    | Outcome.ok data =>
        Except.ok (pre ++ [Event.deviceRead number] ++
          (if st.verbose then [Event.printReadBytes data] else []) ++
          [Event.alarmSet 0], data)
    | Outcome.timeout =>
        Except.ok (pre ++ [Event.deviceRead number,
          Event.printFailedRead addr st.mux st.channel, Event.alarmSet 0],
          List.replicate number 0)
    | Outcome.ioError =>
        Except.ok (pre ++ [Event.deviceRead number,
          Event.printIOErrRead st.mux st.channel, Event.alarmSet 0],
          List.replicate number 0)

/-- `SMBasic.write_bytes`: same shape as `read_bytes` (note `verbose` is a
parameter of the method, not `self.verbose`); failures are swallowed after a
diagnostic print and the method returns no result. -/
def write_bytes (st : SMB) (addr : Nat) (buf : List Nat) (verbose : Bool)
    (out : Outcome) : Except PyError (List Event) :=
  match st.device with
  | none => Except.error PyError.notOpenError
  | some _ =>
    let pre := selectDeviceTrace addr verbose ++
      (if verbose then [Event.printWriteBytes buf] else []) ++
      [Event.alarmSet I2C_TIMEOUT]
    match out with
    | Outcome.ok _ =>
        Except.ok (pre ++ [Event.deviceWrite buf, Event.alarmSet 0])
    | Outcome.timeout =>
        Except.ok (pre ++ [Event.deviceWrite buf,
          Event.printFailedWrite addr st.mux st.channel, Event.alarmSet 0])
    | Outcome.ioError =>
        Except.ok (pre ++ [Event.deviceWrite buf,
          Event.printIOErrWrite st.mux st.channel, Event.alarmSet 0])

/-- `SMBasic.close`: if the device file is open, close it and set
`self._device = None`; a no-op when already closed. -/
def close (st : SMB) : List Event × SMB :=
  match st.device with
  | none => ([], st)
  | some _ => ([Event.closeDevice], { st with device := none })

/-- `bytearray([1 << channel])` of `__init__`: raises `ValueError` for a
negative shift count and for a shifted value outside `range(0, 256)`. -/
def mkChannelMask (channel : Int) : Except PyError (List Nat) :=
  if channel < 0 then Except.error PyError.valueError
  else if 256 ≤ 1 <<< channel.toNat then Except.error PyError.valueError
  else Except.ok [1 <<< channel.toNat]

/-- `SMBasic.__init__`: the XOR assert on `(mux, channel)` fires first, then
the channel mask is built, then `self.open(bus)` opens `/dev/i2c-{bus}`
(modelled as succeeding: the device path exists and is accessible). -/
def init (bus : Nat) (mux : Option Nat) (channel : Option Int) (verbose : Bool) :
    Except PyError SMB :=
  if mux.isSome != channel.isSome then Except.error PyError.configError
  else
    match channel with
    | none =>
        Except.ok { mux := mux, channel := none, verbose := verbose,
                    device := some bus, locked := false }
    | some c =>
        match mkChannelMask c with
        | Except.error e => Except.error e
        | Except.ok mask =>
            Except.ok { mux := mux, channel := some mask, verbose := verbose,
                        device := some bus, locked := false }

/-- The trace of one successful `read_bytes` call (used to state the shape of
the mux polling loops, whose reads are 1-byte reads answered by the device). -/
def readOkTrace (addr number : Nat) (data : List Nat) (verbose : Bool) :
    List Event :=
  selectDeviceTrace addr verbose ++ [Event.alarmSet I2C_TIMEOUT] ++
    [Event.deviceRead number] ++
    (if verbose then [Event.printReadBytes data] else []) ++
    [Event.alarmSet 0]

/-- The trace of one successful `write_bytes` call. -/
def writeOkTrace (addr : Nat) (buf : List Nat) (verbose : Bool) :
    List Event :=
  selectDeviceTrace addr verbose ++
    (if verbose then [Event.printWriteBytes buf] else []) ++
    [Event.alarmSet I2C_TIMEOUT] ++ [Event.deviceWrite buf, Event.alarmSet 0]

/-- The `while` loop of `SMBasic.__enter__`:
`while ord(self.read_bytes(addr=self.mux, number=1)).to_bytes(1,'big') != self.channel:
 time.sleep(0.05); self.write_bytes(addr=self.mux, buf=self.channel, verbose=self.verbose)`.
`polls` is the byte each successive 1-byte read yields; `none` means the
responses ran out before a read matched (the loop is still running). -/
def enterLoop (st : SMB) (muxA : Nat) (ch : List Nat) :
    List Nat → Except PyError (Option (List Event))
  | [] => Except.ok none
  | b :: bs =>
    match read_bytes st muxA 1 (Outcome.ok [b]) with
    | Except.error e => Except.error e
    | Except.ok (rt, _) =>
      if [b] = ch then Except.ok (some rt)
      else
        match write_bytes st muxA ch st.verbose (Outcome.ok ch) with
        | Except.error e => Except.error e
        | Except.ok wt =>
          match enterLoop st muxA ch bs with
          | Except.error e => Except.error e
          | Except.ok none => Except.ok none
          | Except.ok (some t) =>
              Except.ok (some (rt ++ [Event.sleepMs 50] ++ wt ++ t))

/-- `SMBasic.__enter__`: when both mux and channel are configured, write the
channel mask to the mux address and poll until a 1-byte read equals the mask;
otherwise do nothing and return `self`. -/
def enterScope (st : SMB) (polls : List Nat) :
    Except PyError (Option (List Event)) :=
  match st.mux, st.channel with
  | some muxA, some ch =>
    match write_bytes st muxA ch st.verbose (Outcome.ok ch) with
    | Except.error e => Except.error e
    | Except.ok wt =>
      match enterLoop st muxA ch polls with
      | Except.error e => Except.error e
      | Except.ok none => Except.ok none
      | Except.ok (some t) => Except.ok (some (wt ++ t))
  | _, _ => Except.ok (some [])

/-- The `while` loop of `SMBasic.__exit__`:
`while ord(self.read_bytes(addr=self.mux, number=1)).to_bytes(1,'big') != b'\x00':
 time.sleep(0.05); self.write_bytes(addr=self.mux, buf=b'\x00', verbose=self.verbose)`. -/
def exitLoop (st : SMB) (muxA : Nat) :
    List Nat → Except PyError (Option (List Event))
  | [] => Except.ok none
  | b :: bs =>
    match read_bytes st muxA 1 (Outcome.ok [b]) with
    | Except.error e => Except.error e
    | Except.ok (rt, _) =>
      if ([b] : List Nat) = [0] then Except.ok (some rt)
      else
        match write_bytes st muxA [0] st.verbose (Outcome.ok [0]) with
        | Except.error e => Except.error e
        | Except.ok wt =>
          match exitLoop st muxA bs with
          | Except.error e => Except.error e
          | Except.ok none => Except.ok none
          | Except.ok (some t) =>
              Except.ok (some (rt ++ [Event.sleepMs 50] ++ wt ++ t))

/-- `SMBasic.__exit__`: when both mux and channel are configured, write the
unlock byte — to the hardcoded literal address `0x70` in the source, not to
`self.mux` — then poll `self.mux` until a read returns `0x00`; in all cases
`self.close()` runs and the method returns `False` (exceptions from the
session body are not suppressed).  `excRaised` is whether the scope body
raised; the source receives `exc_type/exc_val/exc_tb` and ignores them. -/
def exitScope (st : SMB) (excRaised : Bool) (polls : List Nat) :
    Except PyError (Option (List Event × SMB × Bool)) :=
  match st.mux, st.channel with
  | some muxA, some _ =>
    match write_bytes st 0x70 MUX_UNLOCK_REGISTER st.verbose
        (Outcome.ok MUX_UNLOCK_REGISTER) with
    | Except.error e => Except.error e
    | Except.ok w0 =>
      match exitLoop st muxA polls with
      | Except.error e => Except.error e
      | Except.ok none => Except.ok none
      | Except.ok (some t) =>
          Except.ok (some (w0 ++ t ++ (close st).1, (close st).2, false))
  | _, _ => Except.ok (some ((close st).1, (close st).2, false))

/-- Is this event a blocking device transfer? -/
def Event.isTransfer : Event → Bool
  | Event.deviceRead _ => true
  | Event.deviceWrite _ => true
  | _ => false

/-- Is this event one of the four failure-diagnostic print lines? -/
def Event.isFailureDiag : Event → Bool
  | Event.printFailedRead _ _ _ => true
  | Event.printIOErrRead _ _ => true
  | Event.printFailedWrite _ _ _ => true
  | Event.printIOErrWrite _ _ => true
  | _ => false

/-- Alarm state after one event: `signal.alarm(n)` arms for `n ≠ 0`,
disarms for `n = 0`; other events leave it unchanged. -/
def alarmStep (armed : Bool) (e : Event) : Bool :=
  match e with
  | Event.alarmSet n => n != 0
  | _ => armed

/-- Alarm state after a trace, starting from `armed`. -/
def alarmAfter (armed : Bool) (t : List Event) : Bool :=
  t.foldl alarmStep armed

/-- Every blocking transfer event in the trace happens while the alarm is
armed (tracking the alarm state from `armed`). -/
def transfersArmed : Bool → List Event → Bool
  | _, [] => true
  | armed, Event.deviceRead _ :: es => armed && transfersArmed armed es
  | armed, Event.deviceWrite _ :: es => armed && transfersArmed armed es
  | _, Event.alarmSet n :: es => transfersArmed (n != 0) es
  | armed, _ :: es => transfersArmed armed es

/-! ### Helper lemmas -/

theorem read_bytes_ok (st : SMB) (d addr number : Nat) (data : List Nat)
    (hdev : st.device = some d) :
    read_bytes st addr number (Outcome.ok data) =
      Except.ok (readOkTrace addr number data st.verbose, data) := by
  simp only [read_bytes, readOkTrace, hdev]

theorem write_bytes_ok (st : SMB) (d addr : Nat) (buf : List Nat) (vb : Bool)
    (data : List Nat) (hdev : st.device = some d) :
    write_bytes st addr buf vb (Outcome.ok data) =
      Except.ok (writeOkTrace addr buf vb) := by
  simp only [write_bytes, writeOkTrace, hdev]

theorem close_device_none (st : SMB) : (close st).2.device = none := by
  unfold close
  cases h : st.device <;> simp [h]

theorem read_bytes_closed (st : SMB) (addr number : Nat) (out : Outcome)
    (h : st.device = none) :
    read_bytes st addr number out = Except.error PyError.notOpenError := by
  simp only [read_bytes, h]

theorem write_bytes_closed (st : SMB) (addr : Nat) (buf : List Nat) (vb : Bool)
    (out : Outcome) (h : st.device = none) :
    write_bytes st addr buf vb out = Except.error PyError.notOpenError := by
  simp only [write_bytes, h]

theorem mkChannelMask_ok_iff (c : Int) :
    (∃ m, mkChannelMask c = Except.ok m) ↔ (0 ≤ c ∧ c < 8) := by
  unfold mkChannelMask
  by_cases hc : c < 0
  · simp only [hc, if_true]
    constructor
    · rintro ⟨m, hm⟩; cases hm
    · rintro ⟨h0, _⟩; omega
  · simp only [hc, if_false]
    rw [Nat.one_shiftLeft]
    by_cases h8 : (256 : Nat) ≤ 2 ^ c.toNat
    · simp only [h8, if_true]
      constructor
      · rintro ⟨m, hm⟩; cases hm
      · rintro ⟨h0, h7⟩
        have hn : c.toNat < 8 := by omega
        have : (2 : Nat) ^ c.toNat < 2 ^ 8 :=
          Nat.pow_lt_pow_right (by norm_num) hn
        norm_num at this
        omega
    · simp only [h8, if_false]
      constructor
      · rintro ⟨m, _⟩
        push_neg at h8
        have hn : c.toNat < 8 := by
          by_contra hge
          push_neg at hge
          have : (2 : Nat) ^ 8 ≤ 2 ^ c.toNat :=
            Nat.pow_le_pow_right (by norm_num) hge
          norm_num at this
          omega
        omega
      · exact fun _ => ⟨[2 ^ c.toNat], rfl⟩

theorem mkChannelMask_ok_shape (c : Int) (m : List Nat)
    (h : mkChannelMask c = Except.ok m) :
    ∃ k : Nat, k < 8 ∧ m = [2 ^ k] := by
  unfold mkChannelMask at h
  by_cases hc : c < 0
  · simp only [hc, if_true] at h; cases h
  · simp only [hc, if_false] at h
    rw [Nat.one_shiftLeft] at h
    by_cases h8 : (256 : Nat) ≤ 2 ^ c.toNat
    · simp only [h8, if_true] at h; cases h
    · simp only [h8, if_false] at h
      refine ⟨c.toNat, ?_, by cases h; rfl⟩
      push_neg at h8
      by_contra hge
      push_neg at hge
      have : (2 : Nat) ^ 8 ≤ 2 ^ c.toNat :=
        Nat.pow_le_pow_right (by norm_num) hge
      norm_num at this
      omega

theorem init_none_none (bus : Nat) (v : Bool) :
    init bus none none v =
      Except.ok { mux := none, channel := none, verbose := v,
                  device := some bus, locked := false } := by
  simp [init]

theorem init_ok_device (bus : Nat) (mux : Option Nat) (channel : Option Int)
    (v : Bool) (st : SMB) (h : init bus mux channel v = Except.ok st) :
    st.device = some bus := by
  unfold init at h
  split at h
  · cases h
  · split at h
    · cases h; rfl
    · split at h
      · cases h
      · cases h; rfl

theorem mkChannelMask_ok_val (c : Int) (m : List Nat)
    (h : mkChannelMask c = Except.ok m) : m = [1 <<< c.toNat] := by
  unfold mkChannelMask at h
  split_ifs at h
  cases h
  rfl

theorem init_some_some_inv (bus a : Nat) (c : Int) (v : Bool) (st : SMB)
    (h : init bus (some a) (some c) v = Except.ok st) :
    st = { mux := some a, channel := some [1 <<< c.toNat], verbose := v,
           device := some bus, locked := false } := by
  have h' : (match mkChannelMask c with
      | Except.error e => Except.error e
      | Except.ok mask =>
          Except.ok { mux := some a, channel := some mask, verbose := v,
                      device := some bus, locked := false }) = Except.ok st := h
  cases hm : mkChannelMask c with
  | error e =>
    rw [hm] at h'
    exact Except.noConfusion h'
  | ok mask =>
    rw [hm] at h'
    injection h' with h2
    rw [← h2, mkChannelMask_ok_val c mask hm]

theorem enterLoop_cons (st : SMB) (d muxA : Nat) (ch : List Nat) (b : Nat)
    (bs : List Nat) (hdev : st.device = some d) :
    enterLoop st muxA ch (b :: bs) =
      if [b] = ch then Except.ok (some (readOkTrace muxA 1 [b] st.verbose))
      else
        match enterLoop st muxA ch bs with
        | Except.error e => Except.error e
        | Except.ok none => Except.ok none
        | Except.ok (some t) =>
            Except.ok (some (readOkTrace muxA 1 [b] st.verbose ++
              [Event.sleepMs 50] ++ writeOkTrace muxA ch st.verbose ++ t)) := by
  simp only [enterLoop]
  rw [read_bytes_ok st d muxA 1 [b] hdev,
    write_bytes_ok st d muxA ch st.verbose ch hdev]

theorem enterLoop_characterize (st : SMB) (d muxA m : Nat)
    (hdev : st.device = some d) :
    ∀ pre : List Nat, m ∉ pre →
      enterLoop st muxA [m] (pre ++ [m]) =
        Except.ok (some (pre.foldr
          (fun b acc => readOkTrace muxA 1 [b] st.verbose ++
            [Event.sleepMs 50] ++ writeOkTrace muxA [m] st.verbose ++ acc)
          (readOkTrace muxA 1 [m] st.verbose))) := by
  intro pre
  induction pre with
  | nil =>
    intro _
    rw [List.nil_append, enterLoop_cons st d muxA [m] m [] hdev]
    simp
  | cons b bs ih =>
    intro hmem
    have hb : b ≠ m := fun he => hmem (he ▸ List.mem_cons_self _ _)
    have hbs : m ∉ bs := fun hh => hmem (List.mem_cons_of_mem _ hh)
    rw [List.cons_append, enterLoop_cons st d muxA [m] b (bs ++ [m]) hdev,
      if_neg (by simp [hb]), ih hbs, List.foldr_cons]

theorem enterLoop_some_iff (st : SMB) (d muxA m : Nat)
    (hdev : st.device = some d) (polls : List Nat) :
    (∃ t, enterLoop st muxA [m] polls = Except.ok (some t)) ↔ m ∈ polls := by
  induction polls with
  | nil => simp [enterLoop]
  | cons b bs ih =>
    rw [enterLoop_cons st d muxA [m] b bs hdev]
    by_cases hb : b = m
    · subst hb
      simp
    · rw [if_neg (by simp [hb])]
      constructor
      · rintro ⟨t, ht⟩
        rcases he : enterLoop st muxA [m] bs with e | o
        · rw [he] at ht; cases ht
        · cases o with
          | none => rw [he] at ht; cases ht
          | some t' =>
            exact List.mem_cons_of_mem _ (ih.mp ⟨t', he⟩)
      · intro hmem
        have hm : m ∈ bs := by
          rcases List.mem_cons.mp hmem with h | h
          · exact absurd h.symm hb
          · exact h
        obtain ⟨t, ht⟩ := ih.mpr hm
        rw [ht]
        exact ⟨_, rfl⟩

theorem exitLoop_cons (st : SMB) (d muxA : Nat) (b : Nat) (bs : List Nat)
    (hdev : st.device = some d) :
    exitLoop st muxA (b :: bs) =
      if ([b] : List Nat) = [0] then
        Except.ok (some (readOkTrace muxA 1 [b] st.verbose))
      else
        match exitLoop st muxA bs with
        | Except.error e => Except.error e
        | Except.ok none => Except.ok none
        | Except.ok (some t) =>
            Except.ok (some (readOkTrace muxA 1 [b] st.verbose ++
              [Event.sleepMs 50] ++ writeOkTrace muxA [0] st.verbose ++ t)) := by
  simp only [exitLoop]
  rw [read_bytes_ok st d muxA 1 [b] hdev,
    write_bytes_ok st d muxA [0] st.verbose [0] hdev]

theorem closeDevice_not_mem_readOkTrace (addr number : Nat) (data : List Nat)
    (vb : Bool) : Event.closeDevice ∉ readOkTrace addr number data vb := by
  cases vb <;> simp [readOkTrace, selectDeviceTrace]

theorem closeDevice_not_mem_writeOkTrace (addr : Nat) (buf : List Nat)
    (vb : Bool) : Event.closeDevice ∉ writeOkTrace addr buf vb := by
  cases vb <;> simp [writeOkTrace, selectDeviceTrace]

theorem exitLoop_no_close (st : SMB) (d muxA : Nat) (hdev : st.device = some d) :
    ∀ (polls : List Nat) (t : List Event),
      exitLoop st muxA polls = Except.ok (some t) → Event.closeDevice ∉ t := by
  intro polls
  induction polls with
  | nil => intro t ht; cases ht
  | cons b bs ih =>
    intro t ht
    rw [exitLoop_cons st d muxA b bs hdev] at ht
    by_cases hb : ([b] : List Nat) = [0]
    · rw [if_pos hb] at ht
      cases ht
      exact closeDevice_not_mem_readOkTrace muxA 1 [b] st.verbose
    · rw [if_neg hb] at ht
      rcases he : exitLoop st muxA bs with e | o
      · rw [he] at ht; cases ht
      · cases o with
        | none => rw [he] at ht; cases ht
        | some t' =>
          rw [he] at ht
          cases ht
          intro hmem
          rcases List.mem_append.mp hmem with hmem | hmem
          · rcases List.mem_append.mp hmem with hmem | hmem
            · rcases List.mem_append.mp hmem with hmem | hmem
              · exact closeDevice_not_mem_readOkTrace muxA 1 [b] st.verbose hmem
              · simp at hmem
            · exact closeDevice_not_mem_writeOkTrace muxA [0] st.verbose hmem
          · exact ih t' he hmem

theorem exitScope_ok_inv (st : SMB) (exc : Bool) (polls : List Nat)
    (t : List Event) (st' : SMB) (sup : Bool)
    (h : exitScope st exc polls = Except.ok (some (t, st', sup))) :
    sup = false ∧ st' = (close st).2 ∧
    ((st.mux = none ∨ st.channel = none) ∧ t = (close st).1 ∨
      ∃ a ch d te, st.mux = some a ∧ st.channel = some ch ∧
        st.device = some d ∧ exitLoop st a polls = Except.ok (some te) ∧
        t = writeOkTrace 0x70 MUX_UNLOCK_REGISTER st.verbose ++ te ++
          (close st).1) := by
  unfold exitScope at h
  rcases hmx : st.mux with _ | a
  all_goals rcases hch : st.channel with _ | ch
  · rw [hmx, hch] at h; cases h; exact ⟨rfl, rfl, Or.inl ⟨Or.inl rfl, rfl⟩⟩
  · rw [hmx, hch] at h; cases h; exact ⟨rfl, rfl, Or.inl ⟨Or.inl rfl, rfl⟩⟩
  · rw [hmx, hch] at h; cases h; exact ⟨rfl, rfl, Or.inl ⟨Or.inr rfl, rfl⟩⟩
  · rw [hmx, hch] at h
    rcases hd : st.device with _ | d
    · rw [write_bytes_closed st 0x70 MUX_UNLOCK_REGISTER st.verbose _ hd] at h
      exact Except.noConfusion h
    · rw [write_bytes_ok st d 0x70 MUX_UNLOCK_REGISTER st.verbose
        MUX_UNLOCK_REGISTER hd] at h
      have h2 : (match exitLoop st a polls with
          | Except.error e => Except.error e
          | Except.ok none =>
              (Except.ok none : Except PyError (Option (List Event × SMB × Bool)))
          | Except.ok (some te) =>
              Except.ok (some (writeOkTrace 0x70 MUX_UNLOCK_REGISTER st.verbose
                ++ te ++ (close st).1, (close st).2, false)))
          = Except.ok (some (t, st', sup)) := h
      rcases he : exitLoop st a polls with e | o
      · rw [he] at h2
        exact Except.noConfusion h2
      · cases o with
        | none =>
          rw [he] at h2
          exact Option.noConfusion (Except.ok.inj h2)
        | some te =>
          rw [he] at h2
          injection h2 with h3
          injection h3 with h4
          cases h4
          exact ⟨rfl, rfl, Or.inr ⟨a, ch, d, te, rfl, rfl, rfl, he, rfl⟩⟩

/-! ### Claim theorems -/

/-- Claim C5: opening a session and then calling `close` leaves it in a state
where any subsequent `read_bytes` or `write_bytes` fails with the
`NotOpenError` precondition violation, which propagates to the caller (an
`Except.error`, produced before any transfer trace is emitted). -/
theorem close_then_ops_not_open (bus : Nat) (mux : Option Nat)
    (channel : Option Int) (v : Bool) (st : SMB)
    (hinit : init bus mux channel v = Except.ok st)
    (addr number : Nat) (buf : List Nat) (vb : Bool) (out : Outcome) :
    read_bytes (close st).2 addr number out = Except.error PyError.notOpenError ∧
    write_bytes (close st).2 addr buf vb out = Except.error PyError.notOpenError :=
  ⟨read_bytes_closed _ _ _ _ (close_device_none st),
   write_bytes_closed _ _ _ _ _ (close_device_none st)⟩

theorem close_then_ops_not_open_witness :
    read_bytes (close ⟨none, none, false, some 1, false⟩).2 0x40 1 Outcome.timeout
      = Except.error PyError.notOpenError ∧
    write_bytes (close ⟨none, none, false, some 1, false⟩).2 0x40 [1] false
      Outcome.timeout = Except.error PyError.notOpenError :=
  close_then_ops_not_open 1 none none false ⟨none, none, false, some 1, false⟩
    rfl 0x40 1 [1] false Outcome.timeout

/-- Claim C6: constructing with exactly one of mux/channel raises
`ConfigError`; with both or neither, that configuration error is never
raised (with both, construction either succeeds or raises the distinct
`ValueError` of the mask construction, not `ConfigError`). -/
theorem config_pairing_assert (bus : Nat) (v : Bool) :
    (∀ a : Nat, init bus (some a) none v = Except.error PyError.configError) ∧
    (∀ c : Int, init bus none (some c) v = Except.error PyError.configError) ∧
    (∃ st, init bus none none v = Except.ok st) ∧
    (∀ (a : Nat) (c : Int),
      init bus (some a) (some c) v ≠ Except.error PyError.configError) := by
  refine ⟨fun a => by simp [init], fun c => by simp [init],
    ⟨_, init_none_none bus v⟩, fun a c => ?_⟩
  unfold init
  simp only [Option.isSome_some, bne_self_eq_false, if_false]
  cases hm : mkChannelMask c with
  | error e =>
    unfold mkChannelMask at hm
    split_ifs at hm <;> · cases hm; simp
  | ok mask => simp

/-- Claim C7: on a session with the advisory flag not held, `try_lock`
returns `True` and sets the flag; a second `try_lock` before `unlock`
returns `False` and changes nothing; `unlock` clears the flag, after which
`try_lock` returns `True` again; `unlock` on a not-held flag is a no-op. -/
theorem lock_flag_protocol (st : SMB) (h : st.locked = false) :
    (try_lock st).1 = true ∧
    (try_lock st).2.locked = true ∧
    (try_lock (try_lock st).2).1 = false ∧
    (try_lock (try_lock st).2).2 = (try_lock st).2 ∧
    (unlock (try_lock st).2).locked = false ∧
    (try_lock (unlock (try_lock st).2)).1 = true ∧
    unlock st = st := by
  simp [try_lock, unlock, h]

theorem lock_flag_protocol_witness :
    (try_lock ⟨none, none, false, some 1, false⟩).1 = true ∧
    (try_lock ⟨none, none, false, some 1, false⟩).2.locked = true ∧
    (try_lock (try_lock ⟨none, none, false, some 1, false⟩).2).1 = false ∧
    (try_lock (try_lock ⟨none, none, false, some 1, false⟩).2).2
      = (try_lock ⟨none, none, false, some 1, false⟩).2 ∧
    (unlock (try_lock ⟨none, none, false, some 1, false⟩).2).locked = false ∧
    (try_lock (unlock (try_lock ⟨none, none, false, some 1, false⟩).2)).1 = true ∧
    unlock ⟨none, none, false, some 1, false⟩ = ⟨none, none, false, some 1, false⟩ :=
  lock_flag_protocol ⟨none, none, false, some 1, false⟩ rfl

/-- Claim C10: with a mux address given, construction succeeds exactly for
channel indices in `0..7` (outside that range `bytearray([1 << channel])`
raises), and a successful construction holds a one-byte channel mask with
exactly one bit set (`[2 ^ k]` for some `k < 8`). -/
theorem channel_mask_in_range (bus a : Nat) (v : Bool) :
    (∀ c : Int,
      (∃ st, init bus (some a) (some c) v = Except.ok st) ↔ (0 ≤ c ∧ c < 8)) ∧
    (∀ (c : Int) (st : SMB), init bus (some a) (some c) v = Except.ok st →
      ∃ k : Nat, k < 8 ∧ st.channel = some [2 ^ k]) := by
  constructor
  · intro c
    unfold init
    simp only [Option.isSome_some, bne_self_eq_false, if_false]
    rw [← mkChannelMask_ok_iff c]
    constructor
    · rintro ⟨st, hst⟩
      cases hm : mkChannelMask c with
      | error e => rw [hm] at hst; cases hst
      | ok mask => exact ⟨mask, rfl⟩
    · rintro ⟨m, hm⟩
      rw [hm]
      exact ⟨_, rfl⟩
  · intro c st hst
    unfold init at hst
    simp only [Option.isSome_some, bne_self_eq_false, if_false] at hst
    cases hm : mkChannelMask c with
    | error e => rw [hm] at hst; cases hst
    | ok mask =>
      rw [hm] at hst
      obtain ⟨k, hk, rfl⟩ := mkChannelMask_ok_shape c mask hm
      cases hst
      exact ⟨k, hk, rfl⟩

/-- Claim C1: on an open session, a timeout or lower-level I/O fault inside
the blocking transfer never propagates: `read_bytes` returns (as a normal
result) a zero-filled buffer of the requested length and `write_bytes`
returns normally with no result, in both cases with a failure-diagnostic
line in the emitted trace. -/
theorem transfer_failure_masked (st : SMB) (d addr number : Nat)
    (buf : List Nat) (vb : Bool) (out : Outcome)
    (hdev : st.device = some d)
    (hout : out = Outcome.timeout ∨ out = Outcome.ioError) :
    (∃ t, read_bytes st addr number out = Except.ok (t, List.replicate number 0) ∧
      ∃ e ∈ t, e.isFailureDiag = true) ∧
    (∃ t, write_bytes st addr buf vb out = Except.ok t ∧
      ∃ e ∈ t, e.isFailureDiag = true) := by
  rcases hout with h | h <;> subst h
  · have hr : read_bytes st addr number Outcome.timeout =
        Except.ok (selectDeviceTrace addr st.verbose ++
          [Event.alarmSet I2C_TIMEOUT] ++
          [Event.deviceRead number,
           Event.printFailedRead addr st.mux st.channel, Event.alarmSet 0],
          List.replicate number 0) := by
      simp only [read_bytes, hdev]
    have hw : write_bytes st addr buf vb Outcome.timeout =
        Except.ok (selectDeviceTrace addr vb ++
          (if vb then [Event.printWriteBytes buf] else []) ++
          [Event.alarmSet I2C_TIMEOUT] ++
          [Event.deviceWrite buf,
           Event.printFailedWrite addr st.mux st.channel, Event.alarmSet 0]) := by
      simp only [write_bytes, hdev]
    exact ⟨⟨_, hr, Event.printFailedRead addr st.mux st.channel, by simp, rfl⟩,
      ⟨_, hw, Event.printFailedWrite addr st.mux st.channel, by simp, rfl⟩⟩
  · have hr : read_bytes st addr number Outcome.ioError =
        Except.ok (selectDeviceTrace addr st.verbose ++
          [Event.alarmSet I2C_TIMEOUT] ++
          [Event.deviceRead number,
           Event.printIOErrRead st.mux st.channel, Event.alarmSet 0],
          List.replicate number 0) := by
      simp only [read_bytes, hdev]
    have hw : write_bytes st addr buf vb Outcome.ioError =
        Except.ok (selectDeviceTrace addr vb ++
          (if vb then [Event.printWriteBytes buf] else []) ++
          [Event.alarmSet I2C_TIMEOUT] ++
          [Event.deviceWrite buf,
           Event.printIOErrWrite st.mux st.channel, Event.alarmSet 0]) := by
      simp only [write_bytes, hdev]
    exact ⟨⟨_, hr, Event.printIOErrRead st.mux st.channel, by simp, rfl⟩,
      ⟨_, hw, Event.printIOErrWrite st.mux st.channel, by simp, rfl⟩⟩

theorem transfer_failure_masked_witness :
    (∃ t, read_bytes ⟨none, none, false, some 1, false⟩ 0x40 2 Outcome.timeout
        = Except.ok (t, List.replicate 2 0) ∧
      ∃ e ∈ t, e.isFailureDiag = true) ∧
    (∃ t, write_bytes ⟨none, none, false, some 1, false⟩ 0x40 [1] false
        Outcome.timeout = Except.ok t ∧
      ∃ e ∈ t, e.isFailureDiag = true) :=
  transfer_failure_masked ⟨none, none, false, some 1, false⟩ 1 0x40 2 [1] false
    Outcome.timeout rfl (Or.inl rfl)

/-- Claim C8: for every `read_bytes`/`write_bytes` call on an open handle,
whatever the transfer outcome, the emitted trace arms the alarm before the
blocking transfer (every transfer event happens while armed) and no call
finishes with the alarm still armed (the alarm state after the trace is
disarmed, from either initial alarm state). -/
theorem alarm_armed_scoped (st : SMB) (d addr number : Nat) (buf : List Nat)
    (vb : Bool) (out : Outcome) (t₁ : List Event) (r : List Nat)
    (t₂ : List Event) (hdev : st.device = some d)
    (h1 : read_bytes st addr number out = Except.ok (t₁, r))
    (h2 : write_bytes st addr buf vb out = Except.ok t₂) :
    alarmAfter false t₁ = false ∧ alarmAfter true t₁ = false ∧
    transfersArmed false t₁ = true ∧ t₁.any Event.isTransfer = true ∧
    alarmAfter false t₂ = false ∧ alarmAfter true t₂ = false ∧
    transfersArmed false t₂ = true ∧ t₂.any Event.isTransfer = true := by
  simp only [read_bytes, write_bytes, hdev] at h1 h2
  cases out <;>
    simp only [Except.ok.injEq, Prod.mk.injEq] at h1 h2 <;>
    obtain ⟨ht1, -⟩ := h1 <;> subst ht1 <;> subst h2 <;>
    cases hv : st.verbose <;> cases hvb : vb <;>
    simp [alarmAfter, alarmStep, transfersArmed, selectDeviceTrace,
      Event.isTransfer, I2C_TIMEOUT, hv, hvb]

theorem alarm_armed_scoped_witness :
    alarmAfter false [Event.selectDevice 0x40, Event.alarmSet 2,
        Event.deviceRead 1, Event.printFailedRead 0x40 none none,
        Event.alarmSet 0] = false ∧
    alarmAfter true [Event.selectDevice 0x40, Event.alarmSet 2,
        Event.deviceRead 1, Event.printFailedRead 0x40 none none,
        Event.alarmSet 0] = false ∧
    transfersArmed false [Event.selectDevice 0x40, Event.alarmSet 2,
        Event.deviceRead 1, Event.printFailedRead 0x40 none none,
        Event.alarmSet 0] = true ∧
    List.any [Event.selectDevice 0x40, Event.alarmSet 2, Event.deviceRead 1,
        Event.printFailedRead 0x40 none none, Event.alarmSet 0]
      Event.isTransfer = true ∧
    alarmAfter false [Event.selectDevice 0x40, Event.alarmSet 2,
        Event.deviceWrite [1], Event.printFailedWrite 0x40 none none,
        Event.alarmSet 0] = false ∧
    alarmAfter true [Event.selectDevice 0x40, Event.alarmSet 2,
        Event.deviceWrite [1], Event.printFailedWrite 0x40 none none,
        Event.alarmSet 0] = false ∧
    transfersArmed false [Event.selectDevice 0x40, Event.alarmSet 2,
        Event.deviceWrite [1], Event.printFailedWrite 0x40 none none,
        Event.alarmSet 0] = true ∧
    List.any [Event.selectDevice 0x40, Event.alarmSet 2, Event.deviceWrite [1],
        Event.printFailedWrite 0x40 none none, Event.alarmSet 0]
      Event.isTransfer = true :=
  alarm_armed_scoped ⟨none, none, false, some 1, false⟩ 1 0x40 1 [1] false
    Outcome.timeout _ _ _ rfl rfl rfl

/-- Claim C3: for a session constructed with a mux address and a channel
index, scope entry writes the channel mask (the single byte `1 <<< channel`)
to the mux address, then repeatedly reads 1 byte from the mux address,
sleeping 50ms and re-writing the mask after each read that differs from the
mask, and the entry completes exactly when a read equals the mask. -/
theorem enter_scope_locks_channel (bus a : Nat) (c : Int) (v : Bool)
    (st : SMB) (pre polls : List Nat)
    (hinit : init bus (some a) (some c) v = Except.ok st)
    (hpre : (1 <<< c.toNat) ∉ pre) :
    enterScope st (pre ++ [1 <<< c.toNat]) =
      Except.ok (some (writeOkTrace a [1 <<< c.toNat] v ++
        pre.foldr (fun b acc => readOkTrace a 1 [b] v ++ [Event.sleepMs 50] ++
          writeOkTrace a [1 <<< c.toNat] v ++ acc)
          (readOkTrace a 1 [1 <<< c.toNat] v))) ∧
    ((∃ t, enterScope st polls = Except.ok (some t)) ↔
      (1 <<< c.toNat) ∈ polls) := by
  have hst := init_some_some_inv bus a c v st hinit
  subst hst
  have hred : ∀ ps,
      enterScope ⟨some a, some [1 <<< c.toNat], v, some bus, false⟩ ps =
      match enterLoop ⟨some a, some [1 <<< c.toNat], v, some bus, false⟩ a
          [1 <<< c.toNat] ps with
      | Except.error e => Except.error e
      | Except.ok none => Except.ok none
      | Except.ok (some t) =>
          Except.ok (some (writeOkTrace a [1 <<< c.toNat] v ++ t)) := by
    intro ps
    have h0 :
        enterScope ⟨some a, some [1 <<< c.toNat], v, some bus, false⟩ ps =
      match write_bytes ⟨some a, some [1 <<< c.toNat], v, some bus, false⟩ a
          [1 <<< c.toNat] v (Outcome.ok [1 <<< c.toNat]) with
      | Except.error e => Except.error e
      | Except.ok wt =>
        match enterLoop ⟨some a, some [1 <<< c.toNat], v, some bus, false⟩ a
            [1 <<< c.toNat] ps with
        | Except.error e => Except.error e
        | Except.ok none => Except.ok none
        | Except.ok (some t) => Except.ok (some (wt ++ t)) := rfl
    rw [h0, write_bytes_ok _ bus a [1 <<< c.toNat] v [1 <<< c.toNat] rfl]
  constructor
  · rw [hred,
      enterLoop_characterize _ bus a (1 <<< c.toNat) rfl pre hpre]
  · constructor
    · rintro ⟨t, ht⟩
      rw [hred polls] at ht
      rcases he : enterLoop ⟨some a, some [1 <<< c.toNat], v, some bus, false⟩
          a [1 <<< c.toNat] polls with e | o
      · rw [he] at ht
        exact Except.noConfusion ht
      · cases o with
        | none =>
          rw [he] at ht
          exact Option.noConfusion (Except.ok.inj ht)
        | some t' =>
          exact (enterLoop_some_iff ⟨some a, some [1 <<< c.toNat], v, some bus, false⟩
            bus a (1 <<< c.toNat) rfl polls).mp
            ⟨t', he⟩
    · intro hmem
      obtain ⟨t, ht⟩ :=
        (enterLoop_some_iff ⟨some a, some [1 <<< c.toNat], v, some bus, false⟩
            bus a (1 <<< c.toNat) rfl polls).mpr hmem
      rw [hred polls, ht]
      exact ⟨_, rfl⟩

theorem enter_scope_locks_channel_witness :
    enterScope ⟨some 112, some [4], false, some 1, false⟩ ([0] ++ [4]) =
      Except.ok (some (writeOkTrace 112 [4] false ++
        List.foldr (fun b acc => readOkTrace 112 1 [b] false ++
          [Event.sleepMs 50] ++ writeOkTrace 112 [4] false ++ acc)
          (readOkTrace 112 1 [4] false) [0])) ∧
    ((∃ t, enterScope ⟨some 112, some [4], false, some 1, false⟩ [0, 4]
        = Except.ok (some t)) ↔ (4 : Nat) ∈ [0, 4]) :=
  enter_scope_locks_channel 1 112 2 false
    ⟨some 112, some [4], false, some 1, false⟩ [0] [0, 4] rfl (by decide)

/-- Claim C4: whenever the scope exit terminates (with any exception flag),
the resulting session state has the device handle closed (`None`), and the
`close` step's trace comes after the whole mux unlock sequence (the trace is
the mux sequence, containing no close event, followed by `close`'s trace). -/
theorem exit_scope_always_closes (st : SMB) (exc : Bool) (polls : List Nat)
    (t : List Event) (st' : SMB) (sup : Bool)
    (h : exitScope st exc polls = Except.ok (some (t, st', sup))) :
    st'.device = none ∧
    ∃ p, t = p ++ (close st).1 ∧ Event.closeDevice ∉ p := by
  obtain ⟨-, hst', hcase⟩ := exitScope_ok_inv st exc polls t st' sup h
  subst hst'
  refine ⟨close_device_none st, ?_⟩
  rcases hcase with ⟨-, ht⟩ | ⟨a, ch, d, te, hmx, hch, hd, he, ht⟩
  · exact ⟨[], by simp [ht], by simp⟩
  · subst ht
    refine ⟨writeOkTrace 0x70 MUX_UNLOCK_REGISTER st.verbose ++ te, rfl, ?_⟩
    intro hmem
    rcases List.mem_append.mp hmem with hmem | hmem
    · exact closeDevice_not_mem_writeOkTrace 0x70 MUX_UNLOCK_REGISTER
        st.verbose hmem
    · exact exitLoop_no_close st d a hd polls te he hmem

theorem exit_scope_always_closes_witness :
    (⟨none, none, false, none, false⟩ : SMB).device = none ∧
    ∃ p, [Event.closeDevice] = p ++ (close ⟨none, none, false, some 1, false⟩).1 ∧
      Event.closeDevice ∉ p :=
  exit_scope_always_closes ⟨none, none, false, some 1, false⟩ false []
    [Event.closeDevice] ⟨none, none, false, none, false⟩ false rfl

/-- Claim C9: whenever the scope exit terminates, it reports `False` for
exception suppression (so an exception raised by the session body propagates
unchanged to the caller), independently of whether the body raised, and it
still performs the cleanup: the device ends closed and, when a mux is
configured, the trace contains the all-zero unlock write. -/
theorem exit_scope_propagates_body_exception (st : SMB) (exc : Bool)
    (polls : List Nat) (t : List Event) (st' : SMB) (sup : Bool)
    (h : exitScope st exc polls = Except.ok (some (t, st', sup))) :
    sup = false ∧ st'.device = none ∧
    (∀ a ch, st.mux = some a → st.channel = some ch →
      Event.deviceWrite MUX_UNLOCK_REGISTER ∈ t) := by
  obtain ⟨hsup, hst', hcase⟩ := exitScope_ok_inv st exc polls t st' sup h
  subst hst'
  refine ⟨hsup, close_device_none st, ?_⟩
  intro a ch hmx hch
  rcases hcase with ⟨hnone, -⟩ | ⟨a', ch', d, te, hmx', hch', hd, he, ht⟩
  · rcases hnone with h0 | h0
    · rw [hmx] at h0
      exact Option.noConfusion h0
    · rw [hch] at h0
      exact Option.noConfusion h0
  · subst ht
    apply List.mem_append_left
    apply List.mem_append_left
    cases hv : st.verbose <;>
      simp [writeOkTrace, selectDeviceTrace, MUX_UNLOCK_REGISTER, hv]

theorem exit_scope_propagates_body_exception_witness :
    false = false ∧
    (⟨some 112, some [4], false, none, false⟩ : SMB).device = none ∧
    (∀ a ch, (some 112 : Option Nat) = some a →
      (some [4] : Option (List Nat)) = some ch →
      Event.deviceWrite MUX_UNLOCK_REGISTER ∈
        (writeOkTrace 0x70 MUX_UNLOCK_REGISTER false ++
          readOkTrace 112 1 [0] false ++ [Event.closeDevice])) :=
  exit_scope_propagates_body_exception
    ⟨some 112, some [4], false, some 1, false⟩ true [0]
    (writeOkTrace 0x70 MUX_UNLOCK_REGISTER false ++
      readOkTrace 112 1 [0] false ++ [Event.closeDevice])
    ⟨some 112, some [4], false, none, false⟩ false rfl

/-- Claim C2 (counter-evidence at a concrete input): on scope exit of a
session configured with mux address `0x71`, the very first emitted event is
the device selection for the hardcoded address `0x70` — the initial all-zero
unlock write of `__exit__` targets the literal `0x70` of the source, not the
configured mux address `0x71`. -/
theorem exit_unlock_write_uses_hardcoded_address :
    ∃ t st' sup,
      exitScope { mux := some 0x71, channel := some [1], verbose := false,
                  device := some 1, locked := false } false [0]
        = Except.ok (some (t, st', sup)) ∧
      List.head? t = some (Event.selectDevice 0x70) ∧ (0x70 : Nat) ≠ 0x71 :=
  ⟨_, _, _, rfl, rfl, by decide⟩

end SMBasicModel
